import Mathlib

/-!
Verification of the iteration orchestration and result-aggregation engine of
the web-benchmarks repository (`run.py` and `compare.py`).

The Python code is shallowly embedded:

* JSON values are modelled by the inductive type `Json`.  Python `dict`s are
  association lists in insertion order (keys are unique in any dict produced
  by `json.loads`, and every lookup takes the first occurrence).
* Machine floats are idealised as exact rationals (`ℚ`).  The two
  transcendental ingredients, square root (used by `statistics.stdev` /
  `math.sqrt`) and the Student-t quantile `scipy.stats.t.ppf`, are abstract
  parameters `sq : ℚ → ℚ` and `tp : ℚ → ℕ → ℚ` threaded through the
  definitions; no claim depends on their values.
* Python's `%.2f` / `%.3f` formatting is idealised as exact rational
  rounding half-to-even (`fmtFixed`), eliding binary floating-point
  artefacts.
* Fallible code (raising `StatisticsError`, `KeyError`, `TypeError`,
  `IndexError`, `ZeroDivisionError`) is modelled in `Except Unit` or, for
  the stateful aggregator, by returning the partially mutated state together
  with a `Bool` that records whether the call raised.
-/

namespace WB

/-- JSON values as loaded by `json.loads`.  Objects are association lists in
insertion order.  Python's `bool` is a subclass of `int`, so `Json.bool` is
accepted wherever the code checks `isinstance(x, (int, float))`. -/
inductive Json where
  | num (q : ℚ)
  | bool (b : Bool)
  | str (s : String)
  | null
  | arr (elems : List Json)
  | obj (fields : List (String × Json))

/-- Dictionary lookup: first binding of the key (keys of a Python dict are
unique, so this is exact). -/
def jsonLookup : List (String × Json) → String → Option Json
  | [], _ => none
  | (k', v) :: rest, k => if k' = k then some v else jsonLookup rest k

/-- The numeric reading of a JSON value, mirroring
`isinstance(x, (int, float))` (which accepts `bool`: `True` counts as 1). -/
def toNum : Json → Option ℚ
  | .num q => some q
  | .bool b => some (if b then 1 else 0)
  | _ => none

/-! ## compare.py — statistics (`confidence_interval`,
`format_mean_confidence_interval`) -/

/-- Model of `statistics.mean`: raises `StatisticsError` on an empty
sequence, otherwise the exact arithmetic mean. -/
def mean (l : List ℚ) : Except Unit ℚ :=
  if l.isEmpty then .error () else .ok (l.sum / l.length)

/-- The exact sample variance `Σ (x - m)² / (n - 1)` computed internally by
`statistics.stdev`; only ever used for `n ≥ 2`. -/
def sampleVariance (l : List ℚ) : ℚ :=
  let m := l.sum / l.length
  ((l.map fun x => (x - m) ^ 2).sum) / ((l.length : ℚ) - 1)

/-- Model of `confidence_interval(data, confidence)` (compare.py lines
10–15).  `sq` abstracts the square root (so `statistics.stdev data` is
`sq (sampleVariance data)` and `math.sqrt n` is `sq n`), `tp` abstracts
`scipy.stats.t.ppf`.  `statistics.mean` raises on an empty list. -/
def confidence_interval (sq : ℚ → ℚ) (tp : ℚ → ℕ → ℚ) (l : List ℚ)
    (confidence : ℚ) : Except Unit (ℚ × ℚ) :=
  match mean l with
  | .error e => .error e
  | .ok m =>
    let n := l.length
    let stderr := if 1 < n then sq (sampleVariance l) / sq (n : ℚ) else 0
    let interval := if 1 < n then stderr * tp ((1 + confidence) / 2) (n - 1) else 0
    .ok (m - interval, m + interval)

/-- `confidence_interval` at its Python default argument
`confidence=0.95`. -/
def confidence_interval_default (sq : ℚ → ℚ) (tp : ℚ → ℕ → ℚ)
    (l : List ℚ) : Except Unit (ℚ × ℚ) :=
  confidence_interval sq tp l (19 / 20)

/-- Mathematical floor of a rational (`Int.fdiv` rounds towards negative
infinity). -/
def ratFloor (q : ℚ) : ℤ := q.num.fdiv q.den

/-- Round to the nearest integer, ties to even — the rounding used by
Python's fixed-point formatting. -/
def roundHalfEven (q : ℚ) : ℤ :=
  let f := ratFloor q
  let r := q - f
  if r < 1 / 2 then f
  else if 1 / 2 < r then f + 1
  else if f % 2 = 0 then f else f + 1

/-- Left-pad a digit string with zeros to width `k`. -/
def padZeros (k : ℕ) (s : String) : String :=
  String.mk (List.replicate (k - s.length) '0') ++ s

/-- Exact-rational model of Python's fixed-point format `{x:.kf}`. -/
def fmtFixed (k : ℕ) (q : ℚ) : String :=
  let n := roundHalfEven (q * (10 : ℚ) ^ k)
  let sgn := if n < 0 then "-" else ""
  let a := n.natAbs
  sgn ++ toString (a / 10 ^ k) ++ "." ++ padZeros k (toString (a % 10 ^ k))

/-- Python's `{x:.2f}`. -/
def fmt2 : ℚ → String := fmtFixed 2

/-- Python's `{x:.3f}`. -/
def fmt3 : ℚ → String := fmtFixed 3

/-- Model of `format_mean_confidence_interval(data)` (compare.py lines
18–23): the interval at the default confidence level is computed first (so
an empty list raises), then the mean; a zero-width interval renders the bare
mean, otherwise "mean ± halfwidth". -/
def format_mean_confidence_interval (sq : ℚ → ℚ) (tp : ℚ → ℕ → ℚ)
    (l : List ℚ) : Except Unit String :=
  match confidence_interval_default sq tp l with
  | .error e => .error e
  | .ok lohi =>
    match mean l with
    | .error e => .error e
    | .ok m =>
      if lohi.1 = lohi.2 then .ok (fmt2 m)
      else .ok (fmt2 m ++ " ± " ++ fmt2 (lohi.2 - m))

/-! ## compare.py — value extraction and flattening (`extract_tests`) -/

/-- Convert a list of JSON values to rationals; `none` models the
`TypeError` that `statistics.mean` raises on non-numeric data. -/
def toNums : List Json → Option (List ℚ)
  | [] => some []
  | v :: rest =>
    match toNum v with
    | some q => (toNums rest).map (q :: ·)
    | none => none

/-- `statistics.mean` applied to raw JSON values. -/
def jmean (l : List Json) : Except Unit ℚ :=
  match toNums l with
  | some ns => mean ns
  | none => .error ()

/-- `format_mean_confidence_interval` applied to raw JSON values. -/
def jformat (sq : ℚ → ℚ) (tp : ℚ → ℕ → ℚ) (l : List Json) :
    Except Unit String :=
  match toNums l with
  | some ns => format_mean_confidence_interval sq tp ns
  | none => .error ()

/-- Python iteration (`for v in run`): lists yield their elements, strings
their characters, dicts their keys; numbers, booleans and `None` raise
`TypeError`. -/
def pyIter : Json → Except Unit (List Json)
  | .arr l => .ok l
  | .str s => .ok (s.data.map fun c => .str (String.mk [c]))
  | .obj fields => .ok (fields.map fun p => .str p.1)
  | _ => .error ()

/-- Iterate every element of `vl`, collecting the yielded lists. -/
def iterAll : List Json → Except Unit (List (List Json))
  | [] => .ok []
  | v :: rest =>
    match pyIter v with
    | .error e => .error e
    | .ok l =>
      match iterAll rest with
      | .error e => .error e
      | .ok rest' => .ok (l :: rest')

/-- Model of compare.py line 32:
`[v for run in values_list for v in run] if isinstance(values_list[0], list)
else values_list`.  Indexing `values_list[0]` raises `IndexError` on an
empty list; when the first element is a list, every element is iterated and
the results are concatenated in order. -/
def flatten_values (vl : List Json) : Except Unit (List Json) :=
  match vl with
  | [] => .error ()
  | v0 :: _ =>
    match v0 with
    | .arr _ =>
      match iterAll vl with
      | .error e => .error e
      | .ok ls => .ok ls.flatten
    | _ => .ok vl

/-! ## run.py — HTTP request dispatch (`BenchmarkHTTPRequestHandler`) -/

/-- HTTP request methods as seen by the handler. -/
inductive HMethod where
  | get
  | head
  | post
  | other

/-- Status code explicitly sent by `do_POST` (run.py lines 55–81), assuming
a well-formed payload on the three known routes: `/TestComplete` sends no
response at all (`none`), `/IterationComplete` and `/BenchmarkComplete` send
200, anything else `send_error(404)`. -/
def do_POST (path : String) : Option ℕ :=
  if path = "/TestComplete" then none
  else if path = "/IterationComplete" then some 200
  else if path = "/BenchmarkComplete" then some 200
  else some 404

/-- Full dispatch of the handler.  `BenchmarkHTTPRequestHandler` extends
`SimpleHTTPRequestHandler` and only overrides `do_POST`, so `GET` and
`HEAD` are served by the inherited file server (200 when the requested file
exists — `fe` — and 404 otherwise), and a method without a `do_*` handler is
answered 501 "Unsupported method" by `BaseHTTPRequestHandler`. -/
def handle_request (fe : Bool) (m : HMethod) (path : String) : Option ℕ :=
  match m with
  | .post => do_POST path
  | .get => some (if fe then 200 else 404)
  | .head => some (if fe then 200 else 404)
  | .other => some 501

/-! ## compare.py — the comparison engine (`main`, lines 50–94) -/

/-- A test key `(benchmark, suite, test)`. -/
abbrev TKey := String × String × String

/-- Lexicographic strict order on character lists by code point — exactly
how Python compares strings. -/
def lexLt : List Char → List Char → Bool
  | [], [] => false
  | [], _ :: _ => true
  | _ :: _, [] => false
  | c :: cs, d :: ds => if c < d then true else if d < c then false else lexLt cs ds

/-- Python's `<` on strings. -/
def strLtB (a b : String) : Bool := lexLt a.data b.data

/-- Python's `<=` on strings. -/
def strLeB (a b : String) : Bool := !(strLtB b a)

/-- Lexicographic non-strict order on a pair, from a strict order on the
first component and a non-strict one on the second — how Python compares
tuples. -/
def pairLe (ltA : α → α → Bool) (le : β → β → Bool) (x y : α × β) : Bool :=
  if ltA x.1 y.1 then true
  else if ltA y.1 x.1 then false
  else le x.2 y.2

/-- Python's `<=` on `(benchmark, suite, test)` tuples. -/
def keyLeB : TKey → TKey → Bool := pairLe strLtB (pairLe strLtB strLeB)

/-- The ordering used by `sorted(all_keys)`. -/
def keyLe (a b : TKey) : Prop := keyLeB a b = true

instance : DecidableRel keyLe := fun a b =>
  inferInstanceAs (Decidable (keyLeB a b = true))

/-- Model of `sorted(set(old) | set(new))`: the distinct keys in ascending
lexicographic order. -/
def sortKeys (l : List TKey) : List TKey := List.insertionSort keyLe l.dedup

/-- One row of the per-test comparison table. -/
structure Row where
  bench : String
  suite : String
  test : String
  speedup : String
  old_str : String
  new_str : String

/-- The key cells of a row. -/
def rowKey (r : Row) : TKey := (r.bench, r.suite, r.test)

/-- Model of the per-key row construction in `main` (compare.py lines
68–92).  If either side is empty the speedup is blank and the missing side
renders as the "—" placeholder; otherwise the two means are taken (raising
on non-numeric data), the speedup `old_mean / new_mean` is computed —
Python raises `ZeroDivisionError` when `new_mean` is zero — and both sides
are formatted. -/
def compare_row (sq : ℚ → ℚ) (tp : ℚ → ℕ → ℚ) (k : TKey)
    (old_vals new_vals : List Json) : Except Unit Row :=
  if old_vals.isEmpty || new_vals.isEmpty then
    match (if old_vals.isEmpty then .ok "—" else jformat sq tp old_vals) with
    | .error e => .error e
    | .ok os =>
      match (if new_vals.isEmpty then .ok "—" else jformat sq tp new_vals) with
      | .error e => .error e
      | .ok ns => .ok ⟨k.1, k.2.1, k.2.2, "", os, ns⟩
  else
    match jmean old_vals with
    | .error e => .error e
    | .ok om =>
      match jmean new_vals with
      | .error e => .error e
      | .ok nm =>
        if nm = 0 then .error ()
        else
          match jformat sq tp old_vals with
          | .error e => .error e
          | .ok os =>
            match jformat sq tp new_vals with
            | .error e => .error e
            | .ok ns => .ok ⟨k.1, k.2.1, k.2.2, fmt3 (om / nm), os, ns⟩

/-- Model of `{ r.key: r.values for r in rows }.get(key, [])`: the value of
the last row bearing the key, defaulting to the empty list. -/
def dictGet (rows : List (TKey × List Json)) (k : TKey) : List Json :=
  (rows.foldl (fun acc r => if r.1 = k then some r.2 else acc) none).getD []

/-- The `test_results` mapping of a results file:
benchmark → suite → test → raw JSON value list. -/
abbrev ResultData := List (String × List (String × List (String × Json)))

/-- One `(test_name, values_list)` entry of `extract_tests`: the value must
be a list (anything else raises — at the `values_list[0]` subscript for
dicts and numbers, or later at `statistics.mean` for strings, which makes
the whole comparison raise either way) and is flattened. -/
def extract_value (b s t : String) (v : Json) : Except Unit (TKey × List Json) :=
  match v with
  | .arr vl =>
    match flatten_values vl with
    | .error e => .error e
    | .ok flat => .ok ((b, s, t), flat)
  | _ => .error ()

/-- The inner loop of `extract_tests` over one suite's tests; entries whose
flattened value list is empty are skipped (`if not flat_values: continue`). -/
def extract_tests_tests (b s : String) :
    List (String × Json) → Except Unit (List (TKey × List Json))
  | [] => .ok []
  | (t, v) :: rest =>
    match extract_value b s t v with
    | .error e => .error e
    | .ok row =>
      match extract_tests_tests b s rest with
      | .error e => .error e
      | .ok rows => .ok (if row.2.isEmpty then rows else row :: rows)

/-- The middle loop of `extract_tests` over one benchmark's suites. -/
def extract_tests_suites (b : String) :
    List (String × List (String × Json)) → Except Unit (List (TKey × List Json))
  | [] => .ok []
  | (s, tests) :: rest =>
    match extract_tests_tests b s tests with
    | .error e => .error e
    | .ok rows1 =>
      match extract_tests_suites b rest with
      | .error e => .error e
      | .ok rows2 => .ok (rows1 ++ rows2)

/-- Model of `extract_tests(data)` (compare.py lines 26–43) applied to the
`test_results` mapping of a loaded file. -/
def extract_tests : ResultData → Except Unit (List (TKey × List Json))
  | [] => .ok []
  | (b, suites) :: rest =>
    match extract_tests_suites b suites with
    | .error e => .error e
    | .ok rows1 =>
      match extract_tests rest with
      | .error e => .error e
      | .ok rows2 => .ok (rows1 ++ rows2)

/-- The row loop of `main` over the sorted union of keys. -/
def rowsFor (sq : ℚ → ℚ) (tp : ℚ → ℕ → ℚ) (oldD newD : TKey → List Json) :
    List TKey → Except Unit (List Row)
  | [] => .ok []
  | k :: ks =>
    match compare_row sq tp k (oldD k) (newD k) with
    | .error e => .error e
    | .ok r =>
      match rowsFor sq tp oldD newD ks with
      | .error e => .error e
      | .ok rs => .ok (r :: rs)

/-- Model of the per-test comparison table of `main` (compare.py lines
61–92): extract both files, index the rows by key, and build one row per
key of the sorted union. -/
def compare_tests (sq : ℚ → ℚ) (tp : ℚ → ℕ → ℚ) (dOld dNew : ResultData) :
    Except Unit (List Row) :=
  match extract_tests dOld with
  | .error e => .error e
  | .ok oldRows =>
    match extract_tests dNew with
    | .error e => .error e
    | .ok newRows =>
      rowsFor sq tp (dictGet oldRows) (dictGet newRows)
        (sortKeys (oldRows.map (·.1) ++ newRows.map (·.1)))

/-- How a row of `compareTests(A, B)` corresponds to the row for the same
key of `compareTests(B, A)`: key cells equal, old/new columns swapped, and
the speedups — blank together, or built from the two (nonzero) means as
reciprocal ratios. -/
def RowRel (a b : Row) : Prop :=
  a.bench = b.bench ∧ a.suite = b.suite ∧ a.test = b.test ∧
  a.old_str = b.new_str ∧ a.new_str = b.old_str ∧
  (a.speedup = "" ↔ b.speedup = "") ∧
  (a.speedup ≠ "" → ∃ m1 m2 : ℚ, m1 ≠ 0 ∧ m2 ≠ 0 ∧
    a.speedup = fmt3 (m1 / m2) ∧ b.speedup = fmt3 (m2 / m1) ∧
    (m1 / m2) * (m2 / m1) = 1)

/-! ## run.py — the result aggregator (`append_table_data`, lines 21–52) -/

/-- The `test_results` accumulator:
benchmark → suite → test → timing series (defaulting to the empty series,
matching the lazily created nested dicts). -/
def TestResults : Type := String → String → String → List ℚ

/-- Append one sample to one series
(`test_results[benchmark][suite][test].append(total)`). -/
def trAppend (b s t : String) (q : ℚ) (tr : TestResults) : TestResults :=
  fun b' s' t' => if b' = b ∧ s' = s ∧ t' = t then tr b' s' t' ++ [q] else tr b' s' t'

/-- Python truthiness of the `suite` / `test` parameters: `None` and the
empty string are falsy. -/
def truthy : Option String → Bool
  | none => false
  | some s => s != ""

/-- The `"total"` field of a node when present and numeric
(`"total" in json_object and isinstance(json_object["total"], (int, float))`). -/
def numTotal (fields : List (String × Json)) : Option ℚ :=
  match jsonLookup fields "total" with
  | some v => toNum v
  | none => none

/-- The leaf step of `append_tests_recursively` (run.py lines 24–32): a
numeric `total` is appended only when both `suite` and `test` are truthy. -/
def applyTotal (benchmark : String) (fields : List (String × Json))
    (suite test : Option String) (tr : TestResults) : TestResults :=
  match numTotal fields with
  | some q =>
    if truthy suite && truthy test then
      trAppend benchmark (suite.getD "") (test.getD "") q tr
    else tr
  | none => tr

mutual

/-- Model of `append_tests_recursively(benchmark, json_object, suite, test)`
(run.py lines 22–39): non-dicts are ignored; a dict first contributes its
numeric `total` (when in full suite/test context) and then recurses into its
`tests` mapping when that field holds a dict. -/
def append_tests_recursively (benchmark : String) (j : Json)
    (suite test : Option String) (tr : TestResults) : TestResults :=
  match j with
  | .obj fields =>
    append_tests_scan benchmark fields suite (applyTotal benchmark fields suite test tr)
  | _ => tr

/-- Scan the fields for the (unique) `"tests"` key. -/
def append_tests_scan (benchmark : String) (fields : List (String × Json))
    (suite : Option String) (tr : TestResults) : TestResults :=
  match fields with
  | [] => tr
  | (k, v) :: rest =>
    if k = "tests" then append_tests_dict benchmark v suite tr
    else append_tests_scan benchmark rest suite tr

/-- The value of the `"tests"` field is recursed into only when it is a
dict (`isinstance(json_object["tests"], dict)`). -/
def append_tests_dict (benchmark : String) (v : Json) (suite : Option String)
    (tr : TestResults) : TestResults :=
  match v with
  | .obj children => append_tests_children benchmark children suite tr
  | _ => tr

/-- The loop over `json_object["tests"].items()` (run.py lines 35–39): with
a truthy suite the child key becomes the test name, otherwise it becomes the
suite name. -/
def append_tests_children (benchmark : String) (children : List (String × Json))
    (suite : Option String) (tr : TestResults) : TestResults :=
  match children with
  | [] => tr
  | (k, v) :: rest =>
    append_tests_children benchmark rest suite
      (if truthy suite then append_tests_recursively benchmark v suite (some k) tr
       else append_tests_recursively benchmark v (some k) none tr)

end

/-- The contribution of one node itself to the series of key `(s, t)`: its
numeric `total`, provided the node sits in exactly that (truthy) context. -/
def leaf_here (s t : String) (fields : List (String × Json))
    (suite test : Option String) : List ℚ :=
  match numTotal fields with
  | some q =>
    if truthy suite && truthy test then
      if some s = suite ∧ some t = test then [q] else []
    else []
  | none => []

mutual

/-- Specification function: the samples that one walk of
`append_tests_recursively` from context `(suite, test)` appends to the
series of key `(s, t)`, in order. -/
def leaf_totals (s t : String) (j : Json) (suite test : Option String) : List ℚ :=
  match j with
  | .obj fields => leaf_here s t fields suite test ++ leaf_totals_scan s t fields suite
  | _ => []

/-- Companion of `leaf_totals` for `append_tests_scan`. -/
def leaf_totals_scan (s t : String) (fields : List (String × Json))
    (suite : Option String) : List ℚ :=
  match fields with
  | [] => []
  | (k, v) :: rest =>
    if k = "tests" then leaf_totals_dict s t v suite
    else leaf_totals_scan s t rest suite

/-- Companion of `leaf_totals` for `append_tests_dict`. -/
def leaf_totals_dict (s t : String) (v : Json) (suite : Option String) : List ℚ :=
  match v with
  | .obj children => leaf_totals_children s t children suite
  | _ => []

/-- Companion of `leaf_totals` for `append_tests_children`. -/
def leaf_totals_children (s t : String) (children : List (String × Json))
    (suite : Option String) : List ℚ :=
  match children with
  | [] => []
  | (k, v) :: rest =>
    (if truthy suite then leaf_totals s t v suite (some k)
     else leaf_totals s t v (some k) none) ++ leaf_totals_children s t rest suite

end

/-- The aggregate state of run.py: the module-level `test_results` dict and
the two series of each benchmark's `benchmark_totals` entry.  Totals are
appended raw (no numeric check), hence `Json`-valued. -/
structure AggState where
  test_results : TestResults
  totalTime : String → List Json
  score : String → List Json

/-- Append one raw value to one benchmark's totals series. -/
def listApp (b : String) (v : Json) (f : String → List Json) : String → List Json :=
  fun b' => if b' = b then f b' ++ [v] else f b'

/-- Model of `append_table_data(benchmark, results)` (run.py lines 21–52).
The recursive walk over the tests runs first; then `results["total"]` is
appended to `totalTime` and `results["score"]` to `score`.  The `Bool`
records whether the call raised (`KeyError` on a missing field, `TypeError`
when `results` is not a dict); the returned state keeps every mutation made
before the raise. -/
def append_table_data (benchmark : String) (results : Json) (st : AggState) :
    AggState × Bool :=
  let tr := append_tests_recursively benchmark results none none st.test_results
  match results with
  | .obj fields =>
    match jsonLookup fields "total" with
    | some tv =>
      let tt := listApp benchmark tv st.totalTime
      match jsonLookup fields "score" with
      | some sv => (⟨tr, tt, listApp benchmark sv st.score⟩, false)
      | none => (⟨tr, tt, st.score⟩, true)
    | none => (⟨tr, st.totalTime, st.score⟩, true)
  | _ => (⟨tr, st.totalTime, st.score⟩, true)

/-- A sequence of `/IterationComplete` ingestions.  An exception in the
handler aborts only that request (the server keeps serving and the partial
mutations stay), so the fold continues regardless of the raised flag. -/
def ingestSeq (calls : List (String × Json)) (st : AggState) : AggState :=
  calls.foldl (fun s c => (append_table_data c.1 c.2 s).1) st

/-- The empty aggregate state at process start. -/
def initState : AggState := ⟨fun _ _ _ => [], fun _ => [], fun _ => []⟩

/-- Whether a raw result carries both root fields `total` and `score`
(exactly when `append_table_data` completes without raising). -/
def hasRootTotals : Json → Bool
  | .obj fields => (jsonLookup fields "total").isSome && (jsonLookup fields "score").isSome
  | _ => false

/-! ## Order properties of the key ordering -/

lemma lexLt_irrefl (l : List Char) : lexLt l l = false := by
  induction l with
  | nil => rfl
  | cons c cs ih => simp [lexLt, ih]

lemma char_eq_of_not_lt {a b : Char} (h1 : ¬ a < b) (h2 : ¬ b < a) : a = b :=
  le_antisymm (not_lt.mp h2) (not_lt.mp h1)

lemma lexLt_asymm : ∀ {a b : List Char}, lexLt a b = true → lexLt b a = false := by
  intro a
  induction a with
  | nil =>
    intro b h
    cases b with
    | nil => simp [lexLt] at h
    | cons d ds => simp [lexLt]
  | cons c cs ih =>
    intro b h
    cases b with
    | nil => simp [lexLt] at h
    | cons d ds =>
      by_cases h1 : c < d
      · simp [lexLt, h1, asymm h1]
      · by_cases h2 : d < c
        · simp [lexLt, h1, h2] at h
        · simp [lexLt, h1, h2] at h ⊢
          exact ih h

lemma lexLt_conn : ∀ {a b : List Char}, lexLt a b = false → lexLt b a = false → a = b := by
  intro a
  induction a with
  | nil =>
    intro b h1 h2
    cases b with
    | nil => rfl
    | cons d ds => simp [lexLt] at h1
  | cons c cs ih =>
    intro b h1 h2
    cases b with
    | nil => simp [lexLt] at h2
    | cons d ds =>
      by_cases hcd : c < d
      · simp [lexLt, hcd] at h1
      · by_cases hdc : d < c
        · simp [lexLt, hdc] at h2
        · have hc : c = d := char_eq_of_not_lt hcd hdc
          subst hc
          simp [lexLt, lt_irrefl] at h1 h2
          rw [ih h1 h2]

lemma lexLt_trans : ∀ {a b c : List Char},
    lexLt a b = true → lexLt b c = true → lexLt a c = true := by
  intro a
  induction a with
  | nil =>
    intro b c h1 h2
    cases b with
    | nil => simp [lexLt] at h1
    | cons e es =>
      cases c with
      | nil => simp [lexLt] at h2
      | cons f fs => simp [lexLt]
  | cons x xs ih =>
    intro b c h1 h2
    cases b with
    | nil => simp [lexLt] at h1
    | cons e es =>
      cases c with
      | nil => simp [lexLt] at h2
      | cons f fs =>
        by_cases hxe : x < e
        · by_cases hef : e < f
          · simp [lexLt, lt_trans hxe hef]
          · by_cases hfe : f < e
            · simp [lexLt, hxe, hef, hfe] at h2
            · have : e = f := char_eq_of_not_lt hef hfe
              subst this
              simp [lexLt, hxe]
        · by_cases hex : e < x
          · simp [lexLt, hxe, hex] at h1
          · have : x = e := char_eq_of_not_lt hxe hex
            subst this
            simp [lexLt, lt_irrefl] at h1
            by_cases hef : x < f
            · simp [lexLt, hef]
            · by_cases hfe : f < x
              · simp [lexLt, hef, hfe] at h2
              · have : x = f := char_eq_of_not_lt hef hfe
                subst this
                simp [lexLt, lt_irrefl] at h2 ⊢
                exact ih h1 h2

lemma string_ext {a b : String} (h : a.data = b.data) : a = b := by
  cases a
  cases b
  exact congrArg String.mk (by simpa using h)

lemma strLtB_asymm {a b : String} (h : strLtB a b = true) : strLtB b a = false :=
  lexLt_asymm h

lemma strLtB_trans {a b c : String} (h1 : strLtB a b = true)
    (h2 : strLtB b c = true) : strLtB a c = true :=
  lexLt_trans h1 h2

lemma strLtB_conn {a b : String} (h1 : strLtB a b = false)
    (h2 : strLtB b a = false) : a = b :=
  string_ext (lexLt_conn h1 h2)

lemma strLeB_total (a b : String) : strLeB a b = true ∨ strLeB b a = true := by
  by_cases h : strLtB b a = true
  · right
    simp [strLeB, strLtB_asymm h]
  · left
    simp [strLeB]
    simpa using h

lemma strLeB_trans {a b c : String} (h1 : strLeB a b = true)
    (h2 : strLeB b c = true) : strLeB a c = true := by
  simp only [strLeB, Bool.not_eq_true'] at h1 h2 ⊢
  by_cases hca : strLtB c a = true
  · exfalso
    by_cases hcb : strLtB c b = true
    · simp [hcb] at h2
    · by_cases hbc : strLtB b c = true
      · have := strLtB_trans hbc hca
        simp [this] at h1
      · have : c = b := strLtB_conn (by simpa using hcb) (by simpa using hbc)
        subst this
        simp [hca] at h1
  · simpa using hca

lemma strLeB_antisymm {a b : String} (h1 : strLeB a b = true)
    (h2 : strLeB b a = true) : a = b := by
  simp only [strLeB, Bool.not_eq_true'] at h1 h2
  exact strLtB_conn h2 h1

section pairLeLemmas

variable {α β : Type} {ltA : α → α → Bool} {le : β → β → Bool}

lemma pairLe_total (hle : ∀ x y, le x y = true ∨ le y x = true) (x y : α × β) :
    pairLe ltA le x y = true ∨ pairLe ltA le y x = true := by
  unfold pairLe
  by_cases h1 : ltA x.1 y.1 = true
  · left
    simp [h1]
  · by_cases h2 : ltA y.1 x.1 = true
    · right
      simp [h2]
    · simp [h1, h2]
      exact hle x.2 y.2

lemma pairLe_trans
    (htrans : ∀ x y z : α, ltA x y = true → ltA y z = true → ltA x z = true)
    (hconn : ∀ x y : α, ltA x y = false → ltA y x = false → x = y)
    (hle : ∀ x y z : β, le x y = true → le y z = true → le x z = true)
    {x y z : α × β} (h1 : pairLe ltA le x y = true)
    (h2 : pairLe ltA le y z = true) : pairLe ltA le x z = true := by
  unfold pairLe at h1 h2 ⊢
  by_cases hxy : ltA x.1 y.1 = true
  · by_cases hyz : ltA y.1 z.1 = true
    · simp [htrans _ _ _ hxy hyz]
    · by_cases hzy : ltA z.1 y.1 = true
      · simp [hyz, hzy] at h2
      · have heq : y.1 = z.1 := hconn _ _ (by simpa using hyz) (by simpa using hzy)
        rw [← heq]
        simp [hxy]
  · by_cases hyx : ltA y.1 x.1 = true
    · simp [hxy, hyx] at h1
    · have hfst : x.1 = y.1 := hconn _ _ (by simpa using hxy) (by simpa using hyx)
      simp [hxy, hyx] at h1
      by_cases hyz : ltA y.1 z.1 = true
      · rw [hfst]
        simp [hyz]
      · by_cases hzy : ltA z.1 y.1 = true
        · simp [hyz, hzy] at h2
        · have hsnd : y.1 = z.1 := hconn _ _ (by simpa using hyz) (by simpa using hzy)
          simp [hyz, hzy] at h2
          rw [hfst, hsnd]
          by_cases hzz : ltA z.1 z.1 = true
          · simp [hzz]
          · simp [hzz]
            exact hle _ _ _ h1 h2

lemma pairLe_antisymm
    (hasym : ∀ x y : α, ltA x y = true → ltA y x = false)
    (hconn : ∀ x y : α, ltA x y = false → ltA y x = false → x = y)
    (hle : ∀ x y : β, le x y = true → le y x = true → x = y)
    {x y : α × β} (h1 : pairLe ltA le x y = true)
    (h2 : pairLe ltA le y x = true) : x = y := by
  unfold pairLe at h1 h2
  by_cases hxy : ltA x.1 y.1 = true
  · simp [hasym _ _ hxy, hxy] at h2
  · by_cases hyx : ltA y.1 x.1 = true
    · simp [hxy, hyx] at h1
    · have hfst : x.1 = y.1 := hconn _ _ (by simpa using hxy) (by simpa using hyx)
      simp [hxy, hyx] at h1 h2
      have hsnd : x.2 = y.2 := hle _ _ h1 h2
      exact Prod.ext hfst hsnd

end pairLeLemmas

lemma innerLe_total (x y : String × String) :
    pairLe strLtB strLeB x y = true ∨ pairLe strLtB strLeB y x = true :=
  pairLe_total strLeB_total x y

lemma innerLe_trans {x y z : String × String}
    (h1 : pairLe strLtB strLeB x y = true) (h2 : pairLe strLtB strLeB y z = true) :
    pairLe strLtB strLeB x z = true :=
  @pairLe_trans String String strLtB strLeB
    (fun _ _ _ h h' => strLtB_trans h h')
    (fun _ _ h h' => strLtB_conn h h')
    (fun _ _ _ h h' => strLeB_trans h h') x y z h1 h2

lemma innerLe_antisymm {x y : String × String}
    (h1 : pairLe strLtB strLeB x y = true) (h2 : pairLe strLtB strLeB y x = true) :
    x = y :=
  @pairLe_antisymm String String strLtB strLeB
    (fun _ _ h => strLtB_asymm h)
    (fun _ _ h h' => strLtB_conn h h')
    (fun _ _ h h' => strLeB_antisymm h h') x y h1 h2

lemma keyLeB_total (a b : TKey) : keyLeB a b = true ∨ keyLeB b a = true :=
  @pairLe_total String (String × String) strLtB (pairLe strLtB strLeB)
    innerLe_total a b

lemma keyLeB_trans {a b c : TKey} (h1 : keyLeB a b = true)
    (h2 : keyLeB b c = true) : keyLeB a c = true :=
  @pairLe_trans String (String × String) strLtB (pairLe strLtB strLeB)
    (fun _ _ _ h h' => strLtB_trans h h')
    (fun _ _ h h' => strLtB_conn h h')
    (fun _ _ _ h h' => innerLe_trans h h') a b c h1 h2

lemma keyLeB_antisymm {a b : TKey} (h1 : keyLeB a b = true)
    (h2 : keyLeB b a = true) : a = b :=
  @pairLe_antisymm String (String × String) strLtB (pairLe strLtB strLeB)
    (fun _ _ h => strLtB_asymm h)
    (fun _ _ h h' => strLtB_conn h h')
    (fun _ _ h h' => innerLe_antisymm h h') a b h1 h2

instance : IsTotal TKey keyLe := by
  constructor
  intro a b
  exact keyLeB_total a b

instance : IsTrans TKey keyLe := by
  constructor
  intro a b c h1 h2
  exact keyLeB_trans h1 h2

instance : IsAntisymm TKey keyLe := by
  constructor
  intro a b h1 h2
  exact keyLeB_antisymm h1 h2

lemma sortKeys_eq_of_perm {l1 l2 : List TKey} (h : l1.Perm l2) :
    sortKeys l1 = sortKeys l2 :=
  @List.eq_of_perm_of_sorted TKey keyLe _ _ _
    ((List.perm_insertionSort keyLe l1.dedup).trans
      ((h.dedup).trans (List.perm_insertionSort keyLe l2.dedup).symm))
    (List.sorted_insertionSort keyLe l1.dedup)
    (List.sorted_insertionSort keyLe l2.dedup)

lemma mem_sortKeys {x : TKey} {l : List TKey} : x ∈ sortKeys l ↔ x ∈ l := by
  unfold sortKeys
  rw [(List.perm_insertionSort keyLe l.dedup).mem_iff]
  exact List.mem_dedup

lemma sorted_sortKeys (l : List TKey) : List.Sorted keyLe (sortKeys l) :=
  List.sorted_insertionSort keyLe l.dedup

lemma nodup_sortKeys (l : List TKey) : (sortKeys l).Nodup :=
  (List.perm_insertionSort keyLe l.dedup).symm.nodup (List.nodup_dedup l)

/-! ## The walk of `append_tests_recursively` appends exactly the
`leaf_totals` of the payload -/

lemma applyTotal_spec (bench : String) (fields : List (String × Json))
    (suite test : Option String) (tr : TestResults) (b' s t : String) :
    applyTotal bench fields suite test tr b' s t
      = tr b' s t ++ (if b' = bench then leaf_here s t fields suite test else []) := by
  unfold applyTotal leaf_here
  cases hnt : numTotal fields with
  | none => simp
  | some q =>
    by_cases hg : (truthy suite && truthy test) = true
    · rcases suite with _ | su
      · simp [truthy] at hg
      · rcases test with _ | te
        · simp [truthy] at hg
        · simp only [hg, if_true, Option.getD_some]
          by_cases hb : b' = bench
          · by_cases hk : s = su ∧ t = te
            · rcases hk with ⟨hk1, hk2⟩
              subst hk1
              subst hk2
              simp [trAppend, hb]
            · have hk' : ¬ (some s = some su ∧ some t = some te) := by
                simpa using hk
              simp [trAppend, hb, hk, hk']
          · simp [trAppend, hb]
    · simp [hg]

lemma walk_spec_aux (n : ℕ) :
    (∀ j : Json, sizeOf j ≤ n → ∀ bench suite test tr b' s t,
      append_tests_recursively bench j suite test tr b' s t
        = tr b' s t ++ (if b' = bench then leaf_totals s t j suite test else [])) ∧
    (∀ fields : List (String × Json), sizeOf fields ≤ n → ∀ bench suite tr b' s t,
      append_tests_scan bench fields suite tr b' s t
        = tr b' s t ++ (if b' = bench then leaf_totals_scan s t fields suite else [])) ∧
    (∀ v : Json, sizeOf v ≤ n → ∀ bench suite tr b' s t,
      append_tests_dict bench v suite tr b' s t
        = tr b' s t ++ (if b' = bench then leaf_totals_dict s t v suite else [])) ∧
    (∀ children : List (String × Json), sizeOf children ≤ n → ∀ bench suite tr b' s t,
      append_tests_children bench children suite tr b' s t
        = tr b' s t ++ (if b' = bench then leaf_totals_children s t children suite else [])) := by
  induction n using Nat.strong_induction_on with
  | _ n ih =>
    refine ⟨?_, ?_, ?_, ?_⟩
    · intro j hsz bench suite test tr b' s t
      cases j with
      | obj fields =>
        have hflt : sizeOf fields < n := by
          have := Json.obj.sizeOf_spec fields
          omega
        have hB := (ih (sizeOf fields) hflt).2.1 fields le_rfl
        simp only [append_tests_recursively, leaf_totals]
        rw [hB, applyTotal_spec]
        by_cases hb : b' = bench <;> simp [hb]
      | num q => simp [append_tests_recursively, leaf_totals]
      | bool b => simp [append_tests_recursively, leaf_totals]
      | str s' => simp [append_tests_recursively, leaf_totals]
      | null => simp [append_tests_recursively, leaf_totals]
      | arr elems => simp [append_tests_recursively, leaf_totals]
    · intro fields hsz bench suite tr b' s t
      cases fields with
      | nil => simp [append_tests_scan, leaf_totals_scan]
      | cons kv rest =>
        obtain ⟨k, v⟩ := kv
        have hszs := List.cons.sizeOf_spec (k, v) rest
        have hszp := Prod.mk.sizeOf_spec k v
        simp only [append_tests_scan, leaf_totals_scan]
        by_cases hk : k = "tests"
        · rw [if_pos hk, if_pos hk]
          have hltv : sizeOf v < n := by omega
          exact (ih (sizeOf v) hltv).2.2.1 v le_rfl bench suite tr b' s t
        · rw [if_neg hk, if_neg hk]
          have hlt : sizeOf rest < n := by omega
          exact (ih (sizeOf rest) hlt).2.1 rest le_rfl bench suite tr b' s t
    · intro v hsz bench suite tr b' s t
      cases v with
      | obj children =>
        have hlt : sizeOf children < n := by
          have := Json.obj.sizeOf_spec children
          omega
        have hC := (ih (sizeOf children) hlt).2.2.2 children le_rfl
        simp only [append_tests_dict, leaf_totals_dict]
        exact hC bench suite tr b' s t
      | num q => simp [append_tests_dict, leaf_totals_dict]
      | bool b => simp [append_tests_dict, leaf_totals_dict]
      | str s' => simp [append_tests_dict, leaf_totals_dict]
      | null => simp [append_tests_dict, leaf_totals_dict]
      | arr elems => simp [append_tests_dict, leaf_totals_dict]
    · intro children hsz bench suite tr b' s t
      cases children with
      | nil => simp [append_tests_children, leaf_totals_children]
      | cons kv rest =>
        obtain ⟨k, v⟩ := kv
        have hszs := List.cons.sizeOf_spec (k, v) rest
        have hszp := Prod.mk.sizeOf_spec k v
        have hltv : sizeOf v < n := by omega
        have hltr : sizeOf rest < n := by omega
        have hA := (ih (sizeOf v) hltv).1 v le_rfl
        have hC := (ih (sizeOf rest) hltr).2.2.2 rest le_rfl
        simp only [append_tests_children, leaf_totals_children]
        by_cases hsu : truthy suite = true
        · rw [if_pos hsu, if_pos hsu, hC, hA]
          by_cases hb : b' = bench <;> simp [hb]
        · rw [if_neg hsu, if_neg hsu, hC, hA]
          by_cases hb : b' = bench <;> simp [hb]

/-- Master lemma: one walk of `append_tests_recursively` appends exactly
`leaf_totals s t j suite test` to the series of `(bench, s, t)` and leaves
every other benchmark's series untouched. -/
lemma append_tests_recursively_spec (bench : String) (j : Json)
    (suite test : Option String) (tr : TestResults) (b' s t : String) :
    append_tests_recursively bench j suite test tr b' s t
      = tr b' s t ++ (if b' = bench then leaf_totals s t j suite test else []) :=
  (walk_spec_aux (sizeOf j)).1 j le_rfl bench suite test tr b' s t

/-! ## State shape of `append_table_data` and ingestion sequences -/

lemma atd_test_results (bench : String) (results : Json) (st : AggState) :
    ((append_table_data bench results st).1).test_results
      = append_tests_recursively bench results none none st.test_results := by
  cases results with
  | obj fields =>
    rcases h1 : jsonLookup fields "total" with _ | tv
    · simp [append_table_data, h1]
    · rcases h2 : jsonLookup fields "score" with _ | sv
      · simp [append_table_data, h1, h2]
      · simp [append_table_data, h1, h2]
  | num q => rfl
  | bool b => rfl
  | str s => rfl
  | null => rfl
  | arr elems => rfl

lemma atd_raised (bench : String) (results : Json) (st : AggState) :
    (append_table_data bench results st).2 = !(hasRootTotals results) := by
  cases results with
  | obj fields =>
    rcases h1 : jsonLookup fields "total" with _ | tv
    · simp [append_table_data, hasRootTotals, h1]
    · rcases h2 : jsonLookup fields "score" with _ | sv
      · simp [append_table_data, hasRootTotals, h1, h2]
      · simp [append_table_data, hasRootTotals, h1, h2]
  | num q => rfl
  | bool b => rfl
  | str s => rfl
  | null => rfl
  | arr elems => rfl

lemma atd_totals_ok (bench : String) (fields : List (String × Json))
    (st : AggState) (tv sv : Json)
    (h1 : jsonLookup fields "total" = some tv)
    (h2 : jsonLookup fields "score" = some sv) :
    (append_table_data bench (.obj fields) st).2 = false ∧
    (append_table_data bench (.obj fields) st).1.totalTime
      = listApp bench tv st.totalTime ∧
    (append_table_data bench (.obj fields) st).1.score
      = listApp bench sv st.score := by
  simp [append_table_data, h1, h2]

lemma atd_totals_len (bench : String) (results : Json) (st : AggState) (b : String)
    (h : hasRootTotals results = true) :
    ((append_table_data bench results st).1.totalTime b).length
        = (st.totalTime b).length + (if b = bench then 1 else 0) ∧
    ((append_table_data bench results st).1.score b).length
        = (st.score b).length + (if b = bench then 1 else 0) := by
  cases results with
  | obj fields =>
    rcases h1 : jsonLookup fields "total" with _ | tv
    · simp [hasRootTotals, h1] at h
    · rcases h2 : jsonLookup fields "score" with _ | sv
      · simp [hasRootTotals, h1, h2] at h
      · obtain ⟨-, ht, hs⟩ := atd_totals_ok bench fields st tv sv h1 h2
        rw [ht, hs]
        unfold listApp
        by_cases hb : b = bench <;> simp [hb]
  | num q => simp [hasRootTotals] at h
  | bool b' => simp [hasRootTotals] at h
  | str s => simp [hasRootTotals] at h
  | null => simp [hasRootTotals] at h
  | arr elems => simp [hasRootTotals] at h

/-- The samples one `/IterationComplete` call contributes to the series of
key `(b, s, t)`. -/
def iterContribution (b s t : String) (c : String × Json) : List ℚ :=
  if c.1 = b then leaf_totals s t c.2 none none else []

lemma ingestSeq_cons (c : String × Json) (rest : List (String × Json))
    (st : AggState) :
    ingestSeq (c :: rest) st = ingestSeq rest (append_table_data c.1 c.2 st).1 := by
  simp [ingestSeq]

lemma ingestSeq_series : ∀ (calls : List (String × Json)) (st : AggState)
    (b s t : String),
    (ingestSeq calls st).test_results b s t
      = st.test_results b s t ++ (calls.map (iterContribution b s t)).flatten := by
  intro calls
  induction calls with
  | nil => intro st b s t; simp [ingestSeq]
  | cons c rest ih =>
    intro st b s t
    rw [ingestSeq_cons, ih]
    rw [atd_test_results, append_tests_recursively_spec]
    simp [iterContribution]
    by_cases hb : c.1 = b
    · simp [hb, eq_comm]
    · have hb' : ¬ b = c.1 := fun hh => hb hh.symm
      simp [hb, hb']

lemma ingestSeq_totals_len : ∀ (calls : List (String × Json)) (st : AggState),
    (∀ c ∈ calls, hasRootTotals c.2 = true) → ∀ b : String,
    ((ingestSeq calls st).totalTime b).length
        = (st.totalTime b).length + (calls.countP fun c => decide (c.1 = b)) ∧
    ((ingestSeq calls st).score b).length
        = (st.score b).length + (calls.countP fun c => decide (c.1 = b)) := by
  intro calls
  induction calls with
  | nil => intro st h b; simp [ingestSeq]
  | cons c rest ih =>
    intro st h b
    have hc : hasRootTotals c.2 = true := h c (List.mem_cons_self c rest)
    have hrest : ∀ c' ∈ rest, hasRootTotals c'.2 = true := fun c' hm =>
      h c' (List.mem_cons_of_mem c hm)
    rw [ingestSeq_cons]
    obtain ⟨iht, ihs⟩ := ih (append_table_data c.1 c.2 st).1 hrest b
    obtain ⟨ht, hs⟩ := atd_totals_len c.1 c.2 st b hc
    rw [iht, ihs, ht, hs]
    constructor
    · rw [List.countP_cons]
      by_cases hb : c.1 = b
      · simp [hb]
        omega
      · have hb' : ¬ b = c.1 := fun hh => hb hh.symm
        simp [hb, hb']
    · rw [List.countP_cons]
      by_cases hb : c.1 = b
      · simp [hb]
        omega
      · have hb' : ¬ b = c.1 := fun hh => hb hh.symm
        simp [hb, hb']

/-! ## Row-level lemmas for the comparison engine -/

lemma fmtFixed_ne_empty (k : ℕ) (q : ℚ) : fmtFixed k q ≠ "" := by
  intro h
  apply_fun String.length at h
  unfold fmtFixed at h
  simp only [String.length_append] at h
  have hdot : (".").length = 1 := rfl
  have hnil : ("" : String).length = 0 := rfl
  omega

lemma compare_row_key {sq : ℚ → ℚ} {tp : ℚ → ℕ → ℚ} {k : TKey}
    {ov nv : List Json} {r : Row}
    (h : compare_row sq tp k ov nv = .ok r) : rowKey r = k := by
  unfold compare_row at h
  repeat' split at h
  all_goals first
    | exact Except.noConfusion h
    | (injection h with h'
       subst h'
       simp [rowKey])

lemma compare_row_swap {sq : ℚ → ℚ} {tp : ℚ → ℕ → ℚ} {k : TKey}
    {ov nv : List Json} {a b : Row}
    (h1 : compare_row sq tp k ov nv = .ok a)
    (h2 : compare_row sq tp k nv ov = .ok b) : RowRel a b := by
  unfold compare_row at h1 h2
  by_cases ho : ov.isEmpty <;> by_cases hn : nv.isEmpty
  · simp only [ho, hn, Bool.true_or, if_true, eq_self_iff_true, Except.ok.injEq] at h1 h2
    subst h1
    subst h2
    simp [RowRel]
  · rcases hf : jformat sq tp nv with e | s
    · rw [hf] at h1
      simp [ho, hn] at h1
    · rw [hf] at h1 h2
      simp [ho, hn, Except.ok.injEq] at h1 h2
      subst h1
      subst h2
      simp [RowRel]
  · rcases hf : jformat sq tp ov with e | s
    · rw [hf] at h1
      simp [ho, hn] at h1
    · rw [hf] at h1 h2
      simp [ho, hn, Except.ok.injEq] at h1 h2
      subst h1
      subst h2
      simp [RowRel]
  · rw [Bool.not_eq_true] at ho hn
    simp only [ho, hn, Bool.or_self, Bool.false_eq_true, if_false] at h1 h2
    rcases hm1 : jmean ov with e | om
    · simp only [hm1] at h1
      exact Except.noConfusion h1
    · rcases hm2 : jmean nv with e | nm
      · simp only [hm1, hm2] at h1
        exact Except.noConfusion h1
      · simp only [hm1, hm2] at h1 h2
        by_cases hz1 : nm = 0
        · rw [if_pos hz1] at h1
          exact Except.noConfusion h1
        · rw [if_neg hz1] at h1
          by_cases hz2 : om = 0
          · rw [if_pos hz2] at h2
            exact Except.noConfusion h2
          · rw [if_neg hz2] at h2
            rcases hf1 : jformat sq tp ov with e | os
            · simp only [hf1] at h1
              exact Except.noConfusion h1
            · rcases hf2 : jformat sq tp nv with e | ns
              · simp only [hf1, hf2] at h1
                exact Except.noConfusion h1
              · simp only [hf1, hf2, Except.ok.injEq] at h1 h2
                subst h1
                subst h2
                refine ⟨rfl, rfl, rfl, rfl, rfl, ?_, ?_⟩
                · simp [fmtFixed_ne_empty, fmt3]
                · intro _
                  refine ⟨om, nm, hz2, hz1, rfl, rfl, ?_⟩
                  rw [div_mul_div_comm, mul_comm nm om]
                  exact div_self (mul_ne_zero hz2 hz1)

lemma rowsFor_keys {sq : ℚ → ℚ} {tp : ℚ → ℕ → ℚ} {oD nD : TKey → List Json} :
    ∀ {ks : List TKey} {rs : List Row},
    rowsFor sq tp oD nD ks = .ok rs → rs.map rowKey = ks := by
  intro ks
  induction ks with
  | nil =>
    intro rs h
    simp only [rowsFor, Except.ok.injEq] at h
    subst h
    rfl
  | cons k ks ih =>
    intro rs h
    simp only [rowsFor] at h
    rcases hr : compare_row sq tp k (oD k) (nD k) with e | r <;> rw [hr] at h
    · exact Except.noConfusion h
    · rcases hrs : rowsFor sq tp oD nD ks with e2 | rs' <;> rw [hrs] at h
      · exact Except.noConfusion h
      · simp only [Except.ok.injEq] at h
        subst h
        rw [List.map_cons, compare_row_key hr, ih hrs]

lemma rowsFor_swap {sq : ℚ → ℚ} {tp : ℚ → ℕ → ℚ} {oD nD : TKey → List Json} :
    ∀ {ks : List TKey} {r1 r2 : List Row},
    rowsFor sq tp oD nD ks = .ok r1 → rowsFor sq tp nD oD ks = .ok r2 →
    List.Forall₂ RowRel r1 r2 := by
  intro ks
  induction ks with
  | nil =>
    intro r1 r2 h1 h2
    simp only [rowsFor, Except.ok.injEq] at h1 h2
    subst h1
    subst h2
    exact List.Forall₂.nil
  | cons k ks ih =>
    intro r1 r2 h1 h2
    simp only [rowsFor] at h1 h2
    rcases ha : compare_row sq tp k (oD k) (nD k) with e | a <;> rw [ha] at h1
    · exact Except.noConfusion h1
    · rcases hb : compare_row sq tp k (nD k) (oD k) with e | b <;> rw [hb] at h2
      · exact Except.noConfusion h2
      · rcases hr1 : rowsFor sq tp oD nD ks with e | rs1 <;> rw [hr1] at h1
        · exact Except.noConfusion h1
        · rcases hr2 : rowsFor sq tp nD oD ks with e | rs2 <;> rw [hr2] at h2
          · exact Except.noConfusion h2
          · simp only [Except.ok.injEq] at h1 h2
            subst h1
            subst h2
            exact List.Forall₂.cons (compare_row_swap ha hb) (ih hr1 hr2)

/-! ## Claims -/

/-- C2 (counterexample): the claim says every request whose method is not
POST is answered 404, but a GET for an existing file (such as the
benchmark's own `index.html`, which this server exists to serve) is
answered 200 by the inherited `SimpleHTTPRequestHandler`. -/
theorem claim_c2_counterexample :
    handle_request true HMethod.get "/index.html" = some 200 ∧
    handle_request true HMethod.get "/index.html" ≠ some 404 := by
  exact ⟨rfl, by simp [handle_request, do_POST]⟩

/-- C2 (amended): a POST to any path other than `/TestComplete`,
`/IterationComplete` and `/BenchmarkComplete` is answered 404; GET and HEAD
are served by the inherited file server (200 when the file exists, 404
otherwise); any other method is answered 501. -/
theorem claim_c2_amended (fe : Bool) (p : String) :
    (p ≠ "/TestComplete" → p ≠ "/IterationComplete" → p ≠ "/BenchmarkComplete" →
      handle_request fe HMethod.post p = some 404) ∧
    handle_request fe HMethod.get p = some (if fe then 200 else 404) ∧
    handle_request fe HMethod.head p = some (if fe then 200 else 404) ∧
    handle_request fe HMethod.other p = some 501 := by
  refine ⟨?_, rfl, rfl, rfl⟩
  intro h1 h2 h3
  simp [handle_request, do_POST, h1, h2, h3]

/-- C2 (witness): the amended claim at the concrete request
`POST /Elsewhere` (and the other methods) against a server with no such
file. -/
theorem claim_c2_witness :
    handle_request false HMethod.post "/Elsewhere" = some 404 ∧
    handle_request false HMethod.get "/Elsewhere" = some 404 ∧
    handle_request false HMethod.head "/Elsewhere" = some 404 ∧
    handle_request false HMethod.other "/Elsewhere" = some 501 := by
  have h := claim_c2_amended false "/Elsewhere"
  exact ⟨h.1 (by decide) (by decide) (by decide), by simpa using h.2.1,
    by simpa using h.2.2.1, h.2.2.2⟩

/-- C3 (counterexample): for the empty sequence (length 0 ≤ 1) the claim
asserts the zero-width interval `(mean, mean)` is returned, but
`statistics.mean` raises `StatisticsError`, so `confidence_interval`
propagates an exception instead of returning. -/
theorem claim_c3_counterexample :
    confidence_interval (fun q => q) (fun _ _ => 0) [] (19 / 20) = .error () := rfl

/-- C3 (amended): for one sample the interval is the zero-width
`(mean, mean)` (also at the default confidence level 0.95); for the empty
sequence the call fails because the mean of no data is undefined; for
`n ≥ 2` the interval is `mean ∓ margin` with
`margin = stdev / sqrt n * t_ppf((1 + confidence) / 2, n - 1)`. -/
theorem claim_c3_amended (sq : ℚ → ℚ) (tp : ℚ → ℕ → ℚ) (conf x : ℚ)
    (l : List ℚ) :
    confidence_interval sq tp [x] conf = .ok (x, x) ∧
    confidence_interval_default sq tp [x] = .ok (x, x) ∧
    (2 ≤ l.length →
      confidence_interval sq tp l conf
        = .ok (l.sum / l.length
              - sq (sampleVariance l) / sq (l.length : ℚ) * tp ((1 + conf) / 2) (l.length - 1),
            l.sum / l.length
              + sq (sampleVariance l) / sq (l.length : ℚ) * tp ((1 + conf) / 2) (l.length - 1))) := by
  refine ⟨?_, ?_, ?_⟩
  · simp [confidence_interval, mean]
  · simp [confidence_interval_default, confidence_interval, mean]
  · intro h
    have hne : l.isEmpty = false := by
      cases l
      · simp at h
      · rfl
    have h1 : 1 < l.length := by omega
    simp [confidence_interval, mean, hne, h1]

/-- C3 (witness): the amended claim at the one-sample sequence `[4]` and at
`[1, 3]` with `sq` the identity and a constant `t_ppf` of 5 — the mean is
2, the sample variance 2, `stderr = 2 / 2 = 1`, so the interval is
`(2 - 5, 2 + 5)`. -/
theorem claim_c3_witness :
    confidence_interval (fun q => q) (fun _ _ => (5 : ℚ)) [4] (19 / 20) = .ok (4, 4) ∧
    confidence_interval (fun q => q) (fun _ _ => (5 : ℚ)) [1, 3] (19 / 20) = .ok (-3, 7) := by
  constructor
  · exact (claim_c3_amended (fun q => q) (fun _ _ => 5) (19 / 20) 4 [1, 3]).1
  · have h := (claim_c3_amended (fun q => q) (fun _ _ => 5) (19 / 20) 4 [1, 3]).2.2 (by simp)
    rw [h]
    norm_num [sampleVariance]

/-- C6 (counterexample): on the empty stored value list the extraction
raises `IndexError` at the `values_list[0]` type test instead of flattening
it or passing it through. -/
theorem claim_c6_counterexample :
    flatten_values [] = .error () ∧ flatten_values [] ≠ .ok [] := by
  exact ⟨rfl, by simp [flatten_values]⟩

lemma iterAll_map_arr : ∀ ls : List (List Json), iterAll (ls.map Json.arr) = .ok ls := by
  intro ls
  induction ls with
  | nil => rfl
  | cons l rest ih => simp [iterAll, pyIter, ih]

/-- C6 (amended): a non-empty nested sequence-of-sequences is flattened
into the concatenation of its sub-sequences in order, and a non-empty plain
numeric list is passed through unchanged; the empty list raises
`IndexError` at the head type test. -/
theorem claim_c6_amended (ls : List (List Json)) (vl : List Json) :
    (ls ≠ [] → flatten_values (ls.map Json.arr) = .ok ls.flatten) ∧
    ((∀ v ∈ vl, (toNum v).isSome) → vl ≠ [] → flatten_values vl = .ok vl) := by
  constructor
  · intro h
    cases ls with
    | nil => exact absurd rfl h
    | cons l rest =>
      have hit := iterAll_map_arr (l :: rest)
      simp only [List.map_cons] at hit
      simp [flatten_values, hit]
  · intro hnum hne
    cases vl with
    | nil => exact absurd rfl hne
    | cons v rest =>
      have hv := hnum v (List.mem_cons_self v rest)
      cases v with
      | num q => rfl
      | bool b => rfl
      | str s => simp [toNum] at hv
      | null => simp [toNum] at hv
      | arr elems => simp [toNum] at hv
      | obj fields => simp [toNum] at hv

/-- C6 (witness): the amended claim at the nested list `[[1, 2], [3]]`
(flattened outer-then-inner to `[1, 2, 3]`) and the plain list `[4, 5]`
(unchanged). -/
theorem claim_c6_witness :
    flatten_values [Json.arr [Json.num 1, Json.num 2], Json.arr [Json.num 3]]
        = .ok [Json.num 1, Json.num 2, Json.num 3] ∧
    flatten_values [Json.num 4, Json.num 5] = .ok [Json.num 4, Json.num 5] := by
  constructor
  · exact (claim_c6_amended [[Json.num 1, Json.num 2], [Json.num 3]] []).1 (by simp)
  · exact (claim_c6_amended [] [Json.num 4, Json.num 5]).2 (by simp [toNum]) (by simp)

/-- C8: for every non-empty sample sequence the renderer returns the bare
two-decimal mean exactly when the confidence interval has zero width — in
particular for every single-sample sequence — and otherwise
"mean ± halfwidth" with both numbers to two decimals (and the two shapes
are never equal, so the rendering is bare exactly in the zero-width
case). -/
theorem claim_c8 (sq : ℚ → ℚ) (tp : ℚ → ℕ → ℚ) (l : List ℚ) (h : l ≠ []) :
    ∃ lo hi m : ℚ,
      confidence_interval_default sq tp l = .ok (lo, hi) ∧
      mean l = .ok m ∧
      format_mean_confidence_interval sq tp l
        = .ok (if lo = hi then fmt2 m else fmt2 m ++ " ± " ++ fmt2 (hi - m)) ∧
      (∀ w : String, fmt2 m ++ " ± " ++ w ≠ fmt2 m) ∧
      (∀ x : ℚ, l = [x] →
        format_mean_confidence_interval sq tp l = .ok (fmt2 x)) := by
  have hne : l.isEmpty = false := by
    cases l
    · exact absurd rfl h
    · rfl
  have hm : mean l = .ok (l.sum / l.length) := by simp [mean, hne]
  obtain ⟨lo, hi, hci⟩ :
      ∃ lo hi, confidence_interval_default sq tp l = .ok (lo, hi) := by
    simp only [confidence_interval_default, confidence_interval, hm]
    exact ⟨_, _, rfl⟩
  refine ⟨lo, hi, l.sum / l.length, hci, hm, ?_, ?_, ?_⟩
  · simp only [format_mean_confidence_interval, hci, hm]
    by_cases hc : lo = hi <;> simp [hc]
  · intro w hcontra
    apply_fun String.length at hcontra
    rw [String.length_append, String.length_append] at hcontra
    have h3 : (" ± ").length = 3 := rfl
    omega
  · intro x hx
    subst hx
    simp [format_mean_confidence_interval, confidence_interval_default,
      confidence_interval, mean]

/-- C8 (witness): with `sq` the identity and constant `t_ppf` 13, the
two-sample series `[5, 7]` renders "mean ± halfwidth" (`6.00 ± 13.00`) and
the single-sample series `[5]` renders the bare mean. -/
theorem claim_c8_witness :
    format_mean_confidence_interval (fun q => q) (fun _ _ => (13 : ℚ)) [5, 7]
        = .ok (fmt2 6 ++ " ± " ++ fmt2 13) ∧
    format_mean_confidence_interval (fun q => q) (fun _ _ => (13 : ℚ)) [5]
        = .ok (fmt2 5) ∧
    fmt2 6 ++ " ± " ++ fmt2 13 = "6.00 ± 13.00" := by
  obtain ⟨lo, hi, m, hci, hm, hfmt, -, -⟩ :=
    claim_c8 (fun q => q) (fun _ _ => (13 : ℚ)) [5, 7] (by simp)
  have hci2 : confidence_interval_default (fun q => q) (fun _ _ => (13 : ℚ)) [5, 7]
      = .ok (-7, 19) := by
    norm_num [confidence_interval_default, confidence_interval, mean, sampleVariance]
  have hm2 : mean ([5, 7] : List ℚ) = .ok 6 := by norm_num [mean]
  rw [hci2] at hci
  rw [hm2] at hm
  obtain ⟨hlo, hhi⟩ : -7 = lo ∧ 19 = hi := by
    have := hci
    simp only [Except.ok.injEq, Prod.mk.injEq] at this
    exact this
  have hm6 : (6 : ℚ) = m := by
    have := hm
    simp only [Except.ok.injEq] at this
    exact this
  subst hlo
  subst hhi
  subst hm6
  refine ⟨?_, ?_, ?_⟩
  · rw [hfmt]
    norm_num
  · obtain ⟨-, -, -, -, -, -, -, hsingle⟩ :=
      claim_c8 (fun q => q) (fun _ _ => (13 : ℚ)) [5] (by simp)
    exact hsingle 5 rfl
  · norm_num [fmt2, fmtFixed, roundHalfEven, ratFloor, padZeros]
    decide

/-- C1 (counterexample): for the non-empty series `[2]` against `[0, 0]`
(new mean zero) the test-level comparison raises `ZeroDivisionError` at
`old_mean / new_mean` instead of reporting an empty or placeholder
speedup. -/
theorem claim_c1_counterexample :
    compare_row (fun q => q) (fun _ _ => 0) ("B", "S", "T")
        [Json.num 2] [Json.num 0, Json.num 0] = .error () := by
  norm_num [compare_row, jmean, toNums, toNum, mean]

/-- C1 (amended): in the per-test comparison, when either series is empty
the speedup is blank and the absent side renders as the "—" placeholder
(the present side formatted normally); when both are non-empty and the new
mean is nonzero the speedup is `old_mean / new_mean` to three decimals; but
when both are non-empty and the new mean is zero the row construction
raises `ZeroDivisionError` rather than reporting a placeholder. -/
theorem claim_c1_amended (sq : ℚ → ℚ) (tp : ℚ → ℕ → ℚ) (k : TKey)
    (nv ov1 nv1 ov2 nv2 : List Json) (ns s1 s2 : String) (om1 nm1 om2 : ℚ) :
    (compare_row sq tp k [] [] = .ok ⟨k.1, k.2.1, k.2.2, "", "—", "—"⟩) ∧
    (jformat sq tp nv = .ok ns → nv ≠ [] →
      compare_row sq tp k [] nv = .ok ⟨k.1, k.2.1, k.2.2, "", "—", ns⟩ ∧
      compare_row sq tp k nv [] = .ok ⟨k.1, k.2.1, k.2.2, "", ns, "—"⟩) ∧
    (ov1 ≠ [] → nv1 ≠ [] → jmean ov1 = .ok om1 → jmean nv1 = .ok nm1 →
      nm1 ≠ 0 → jformat sq tp ov1 = .ok s1 → jformat sq tp nv1 = .ok s2 →
      compare_row sq tp k ov1 nv1
        = .ok ⟨k.1, k.2.1, k.2.2, fmt3 (om1 / nm1), s1, s2⟩) ∧
    (ov2 ≠ [] → nv2 ≠ [] → jmean ov2 = .ok om2 → jmean nv2 = .ok 0 →
      compare_row sq tp k ov2 nv2 = .error ()) := by
  refine ⟨?_, ?_, ?_, ?_⟩
  · simp [compare_row]
  · intro hf hnv
    have hnve : nv.isEmpty = false := by
      cases nv
      · exact absurd rfl hnv
      · rfl
    constructor
    · simp [compare_row, hnve, hf]
    · simp [compare_row, hnve, hf]
  · intro ho1 hn1 hm1 hm2 hz hf1 hf2
    have hoe : ov1.isEmpty = false := by
      cases ov1
      · exact absurd rfl ho1
      · rfl
    have hne : nv1.isEmpty = false := by
      cases nv1
      · exact absurd rfl hn1
      · rfl
    simp [compare_row, hoe, hne, hm1, hm2, hz, hf1, hf2]
  · intro ho2 hn2 hm1 hm2
    have hoe : ov2.isEmpty = false := by
      cases ov2
      · exact absurd rfl ho2
      · rfl
    have hne : nv2.isEmpty = false := by
      cases nv2
      · exact absurd rfl hn2
      · rfl
    simp [compare_row, hoe, hne, hm1, hm2]

/-- C1 (witness): the amended claim at concrete series — both sides
missing; the spec's scenario old = `[]` against new = `[5.0, 7.0]`
(old "—", new formatted, blank speedup, no crash) and its mirror image;
`[1]` against `[2]` (speedup `0.500`); and `[1]` against `[0]` (raises). -/
theorem claim_c1_witness :
    compare_row (fun q => q) (fun _ _ => (13 : ℚ)) ("Speedometer2", "TodoMVC", "Add") [] []
        = .ok ⟨"Speedometer2", "TodoMVC", "Add", "", "—", "—"⟩ ∧
    compare_row (fun q => q) (fun _ _ => (13 : ℚ)) ("Speedometer2", "TodoMVC", "Add")
        [] [Json.num 5, Json.num 7]
        = .ok ⟨"Speedometer2", "TodoMVC", "Add", "", "—", "6.00 ± 13.00"⟩ ∧
    compare_row (fun q => q) (fun _ _ => (13 : ℚ)) ("Speedometer2", "TodoMVC", "Add")
        [Json.num 5, Json.num 7] []
        = .ok ⟨"Speedometer2", "TodoMVC", "Add", "", "6.00 ± 13.00", "—"⟩ ∧
    compare_row (fun q => q) (fun _ _ => (13 : ℚ)) ("Speedometer2", "TodoMVC", "Add")
        [Json.num 1] [Json.num 2]
        = .ok ⟨"Speedometer2", "TodoMVC", "Add", "0.500", "1.00", "2.00"⟩ ∧
    compare_row (fun q => q) (fun _ _ => (13 : ℚ)) ("Speedometer2", "TodoMVC", "Add")
        [Json.num 1] [Json.num 0] = .error () := by
  have h := claim_c1_amended (fun q => q) (fun _ _ => (13 : ℚ))
    ("Speedometer2", "TodoMVC", "Add") [Json.num 5, Json.num 7]
    [Json.num 1] [Json.num 2] [Json.num 1] [Json.num 0]
    "6.00 ± 13.00" "1.00" "2.00" 1 2 1
  have hf57 : jformat (fun q => q) (fun _ _ => (13 : ℚ)) [Json.num 5, Json.num 7]
      = .ok "6.00 ± 13.00" := by
    norm_num [jformat, toNums, toNum, format_mean_confidence_interval,
      confidence_interval_default, confidence_interval, mean, sampleVariance]
    norm_num [fmt2, fmtFixed, roundHalfEven, ratFloor, padZeros]
    decide
  have hf1 : jformat (fun q => q) (fun _ _ => (13 : ℚ)) [Json.num 1] = .ok "1.00" := by
    norm_num [jformat, toNums, toNum, format_mean_confidence_interval,
      confidence_interval_default, confidence_interval, mean]
    norm_num [fmt2, fmtFixed, roundHalfEven, ratFloor, padZeros]
    decide
  have hf2 : jformat (fun q => q) (fun _ _ => (13 : ℚ)) [Json.num 2] = .ok "2.00" := by
    norm_num [jformat, toNums, toNum, format_mean_confidence_interval,
      confidence_interval_default, confidence_interval, mean]
    norm_num [fmt2, fmtFixed, roundHalfEven, ratFloor, padZeros]
    decide
  obtain ⟨hrow1, hrow2, hrow3, hrow4⟩ := h
  obtain ⟨hrow2a, hrow2b⟩ := hrow2 hf57 (by simp)
  have hspeed : fmt3 ((1 : ℚ) / 2) = "0.500" := by
    norm_num [fmt3, fmtFixed, roundHalfEven, ratFloor, padZeros]
    decide
  refine ⟨hrow1, hrow2a, hrow2b, ?_, ?_⟩
  · have := hrow3 (by simp) (by simp) (by norm_num [jmean, toNums, toNum, mean])
      (by norm_num [jmean, toNums, toNum, mean]) (by norm_num) hf1 hf2
    rw [this, hspeed]
  · exact hrow4 (by simp) (by simp) (by norm_num [jmean, toNums, toNum, mean])
      (by norm_num [jmean, toNums, toNum, mean])

/-- C4 (counterexample): one single ingested iteration whose payload
carries the `(S, T)` leaf at two nesting depths (a `T` node with a numeric
`total` containing a further `tests: T` child) appends twice, so the
series length is 2 although only 1 iteration was ingested — the length
cannot equal a count of iterations. -/
theorem claim_c4_counterexample :
    ((ingestSeq
        [("B", Json.obj [("tests", Json.obj [("S", Json.obj [("tests",
          Json.obj [("T", Json.obj [("total", Json.num 1), ("tests",
          Json.obj [("T", Json.obj [("total", Json.num 2)])])])])])])])]
        initState).test_results "B" "S" "T").length = 2 ∧
    [("B", Json.obj [("tests", Json.obj [("S", Json.obj [("tests",
      Json.obj [("T", Json.obj [("total", Json.num 1), ("tests",
      Json.obj [("T", Json.obj [("total", Json.num 2)])])])])])])])].length = 1 := by
  constructor
  · rw [ingestSeq_series]
    simp [initState, iterContribution, leaf_totals, leaf_totals_scan,
      leaf_totals_dict, leaf_totals_children, leaf_here, numTotal, jsonLookup,
      truthy, toNum]
  · rfl

lemma sum_ite_eq_countP {α : Type} (calls : List α) (f : α → ℕ) (p : α → Bool)
    (h : ∀ c ∈ calls, f c = if p c then 1 else 0) :
    (calls.map f).sum = calls.countP p := by
  induction calls with
  | nil => rfl
  | cons c rest ih =>
    rw [List.map_cons, List.sum_cons, List.countP_cons,
      h c (List.mem_cons_self c rest),
      ih fun c' hm => h c' (List.mem_cons_of_mem c hm)]
    by_cases hp : p c
    · simp [hp]
      omega
    · simp [hp]

/-- C4 (amended): for every ingestion sequence and every TestKey, the
series length is the total number of `(suite, test)`-context nodes with a
numeric `total` for that key over all ingested payloads; when every payload
contains the key's leaf at most once this equals the number of ingested
iterations whose raw result contained that leaf (iterations that do not
report the test append nothing). -/
theorem claim_c4_amended (calls : List (String × Json)) (b s t : String)
    (h : ∀ c ∈ calls, (leaf_totals s t c.2 none none).length ≤ 1) :
    ((ingestSeq calls initState).test_results b s t).length
        = (calls.map fun c => (iterContribution b s t c).length).sum ∧
    ((ingestSeq calls initState).test_results b s t).length
        = (calls.countP fun c =>
            decide (c.1 = b) && !(leaf_totals s t c.2 none none).isEmpty) := by
  have hlen : ((ingestSeq calls initState).test_results b s t).length
      = (calls.map fun c => (iterContribution b s t c).length).sum := by
    rw [ingestSeq_series]
    simp [initState, List.length_flatten, Function.comp_def]
  refine ⟨hlen, ?_⟩
  rw [hlen]
  apply sum_ite_eq_countP
  intro c hm
  have hc := h c hm
  unfold iterContribution
  by_cases hb : c.1 = b
  · rw [if_pos hb]
    rcases hleaf : leaf_totals s t c.2 none none with _ | ⟨x, xs⟩
    · simp [hb]
    · rw [hleaf] at hc
      simp only [List.length_cons] at hc
      have hxs : xs = [] := by
        cases xs
        · rfl
        · simp at hc
      subst hxs
      simp [hb, hleaf]
  · rw [if_neg hb]
    simp [hb]

/-- C4 (witness): three ingested iterations — two for benchmark `B` of
which only the first reports the `(S, T)` leaf, and one for benchmark `C`
that does — leave the series of `(B, S, T)` with exactly one sample. -/
theorem claim_c4_witness :
    ((ingestSeq
        [("B", Json.obj [("tests", Json.obj [("S", Json.obj [("tests",
            Json.obj [("T", Json.obj [("total", Json.num 10)])])])])]),
         ("B", Json.obj [("total", Json.num 3), ("score", Json.num 4)]),
         ("C", Json.obj [("tests", Json.obj [("S", Json.obj [("tests",
            Json.obj [("T", Json.obj [("total", Json.num 10)])])])])])]
        initState).test_results "B" "S" "T").length = 1 := by
  have h := claim_c4_amended
    [("B", Json.obj [("tests", Json.obj [("S", Json.obj [("tests",
        Json.obj [("T", Json.obj [("total", Json.num 10)])])])])]),
     ("B", Json.obj [("total", Json.num 3), ("score", Json.num 4)]),
     ("C", Json.obj [("tests", Json.obj [("S", Json.obj [("tests",
        Json.obj [("T", Json.obj [("total", Json.num 10)])])])])])]
    "B" "S" "T"
    (by
      intro c hc
      fin_cases hc <;>
        simp [leaf_totals, leaf_totals_scan, leaf_totals_dict,
          leaf_totals_children, leaf_here, numTotal, jsonLookup, truthy, toNum])
  rw [h.2]
  simp [List.countP_cons, leaf_totals, leaf_totals_scan, leaf_totals_dict,
    leaf_totals_children, leaf_here, numTotal, jsonLookup, truthy, toNum]

/-- C5 (counterexample): a single ingestion whose payload has a root
`total` but no `score` appends one entry to `totalTime` and raises before
touching `score`, leaving the two sequences with different lengths. -/
theorem claim_c5_counterexample :
    ((ingestSeq [("B", Json.obj [("total", Json.num 5)])] initState).totalTime "B").length = 1 ∧
    ((ingestSeq [("B", Json.obj [("total", Json.num 5)])] initState).score "B").length = 0 := by
  constructor <;> simp [ingestSeq, append_table_data, jsonLookup, listApp, initState]

/-- C5 (amended): for every benchmark and every sequence of ingestions
each of whose payloads carries both root fields `total` and `score` (i.e.
no call raises), the `score` and `totalTime` sequences have equal length,
equal to the number of ingested iterations for that benchmark. -/
theorem claim_c5_amended (calls : List (String × Json)) (b : String)
    (h : ∀ c ∈ calls, hasRootTotals c.2 = true) :
    ((ingestSeq calls initState).score b).length
        = ((ingestSeq calls initState).totalTime b).length ∧
    ((ingestSeq calls initState).totalTime b).length
        = (calls.countP fun c => decide (c.1 = b)) := by
  obtain ⟨ht, hs⟩ := ingestSeq_totals_len calls initState h b
  have h0t : (initState.totalTime b).length = 0 := rfl
  have h0s : (initState.score b).length = 0 := rfl
  rw [h0t, Nat.zero_add] at ht
  rw [h0s, Nat.zero_add] at hs
  exact ⟨by rw [ht, hs], ht⟩

/-- C5 (witness): two well-formed ingestions for benchmark `B` and one for
`C` leave `B`'s totals with two entries in each sequence. -/
theorem claim_c5_witness :
    ((ingestSeq
        [("B", Json.obj [("total", Json.num 3), ("score", Json.num 4)]),
         ("B", Json.obj [("total", Json.num 5), ("score", Json.num 6)]),
         ("C", Json.obj [("total", Json.num 7), ("score", Json.num 8)])]
        initState).score "B").length
      = ((ingestSeq
        [("B", Json.obj [("total", Json.num 3), ("score", Json.num 4)]),
         ("B", Json.obj [("total", Json.num 5), ("score", Json.num 6)]),
         ("C", Json.obj [("total", Json.num 7), ("score", Json.num 8)])]
        initState).totalTime "B").length ∧
    ((ingestSeq
        [("B", Json.obj [("total", Json.num 3), ("score", Json.num 4)]),
         ("B", Json.obj [("total", Json.num 5), ("score", Json.num 6)]),
         ("C", Json.obj [("total", Json.num 7), ("score", Json.num 8)])]
        initState).totalTime "B").length = 2 := by
  have h := claim_c5_amended
    [("B", Json.obj [("total", Json.num 3), ("score", Json.num 4)]),
     ("B", Json.obj [("total", Json.num 5), ("score", Json.num 6)]),
     ("C", Json.obj [("total", Json.num 7), ("score", Json.num 8)])]
    "B" (by intro c hc; fin_cases hc <;> rfl)
  refine ⟨h.1, ?_⟩
  rw [h.2]
  rfl

/-- C9: ingestion is not atomic on error — when the payload is a mapping
that lacks the root `total` or the root `score` field, `append_table_data`
raises a lookup error, but the returned state already contains every test
sample of the walk; when `total` is present (so `score` is the missing
one), the `totalTime` entry has been appended as well, while a missing
`total` raises before `totalTime` is touched; `score` is untouched in
every raising case. -/
theorem claim_c9 (bench : String) (fields : List (String × Json)) (st : AggState)
    (h : jsonLookup fields "total" = none ∨ jsonLookup fields "score" = none) :
    (append_table_data bench (.obj fields) st).2 = true ∧
    (∀ b s t, (append_table_data bench (.obj fields) st).1.test_results b s t
        = st.test_results b s t
          ++ (if b = bench then leaf_totals s t (.obj fields) none none else [])) ∧
    (∀ tv, jsonLookup fields "total" = some tv →
      (append_table_data bench (.obj fields) st).1.totalTime
        = listApp bench tv st.totalTime) ∧
    (jsonLookup fields "total" = none →
      (append_table_data bench (.obj fields) st).1.totalTime = st.totalTime) ∧
    (append_table_data bench (.obj fields) st).1.score = st.score := by
  refine ⟨?_, ?_, ?_, ?_, ?_⟩
  · rw [atd_raised]
    rcases h with h | h <;> simp [hasRootTotals, h]
  · intro b s t
    rw [atd_test_results, append_tests_recursively_spec]
  · intro tv htv
    rcases h with h | h
    · rw [htv] at h
      exact Option.noConfusion h
    · simp [append_table_data, htv, h]
  · intro htv
    simp [append_table_data, htv]
  · rcases htv : jsonLookup fields "total" with _ | tv
    · simp [append_table_data, htv]
    · rcases h with h | h
      · rw [htv] at h
        exact Option.noConfusion h
      · simp [append_table_data, htv, h]

/-- C9 (witness): a payload with a valid `(S, T)` leaf and a root `total`
but no `score` raises, yet the sample and the `totalTime` entry are in the
state while `score` stays empty; a payload with a valid leaf and a root
`score` but no `total` raises with the sample in the state and both totals
sequences untouched. -/
theorem claim_c9_witness :
    (append_table_data "B"
        (Json.obj [("tests", Json.obj [("S", Json.obj [("tests",
            Json.obj [("T", Json.obj [("total", Json.num 3)])])])]),
          ("total", Json.num 9)]) initState).2 = true ∧
    (append_table_data "B"
        (Json.obj [("tests", Json.obj [("S", Json.obj [("tests",
            Json.obj [("T", Json.obj [("total", Json.num 3)])])])]),
          ("total", Json.num 9)]) initState).1.test_results "B" "S" "T" = [3] ∧
    (append_table_data "B"
        (Json.obj [("tests", Json.obj [("S", Json.obj [("tests",
            Json.obj [("T", Json.obj [("total", Json.num 3)])])])]),
          ("total", Json.num 9)]) initState).1.totalTime "B" = [Json.num 9] ∧
    (append_table_data "B"
        (Json.obj [("tests", Json.obj [("S", Json.obj [("tests",
            Json.obj [("T", Json.obj [("total", Json.num 3)])])])]),
          ("total", Json.num 9)]) initState).1.score "B" = [] ∧
    (append_table_data "B"
        (Json.obj [("tests", Json.obj [("S", Json.obj [("tests",
            Json.obj [("T", Json.obj [("total", Json.num 4)])])])]),
          ("score", Json.num 11)]) initState).2 = true ∧
    (append_table_data "B"
        (Json.obj [("tests", Json.obj [("S", Json.obj [("tests",
            Json.obj [("T", Json.obj [("total", Json.num 4)])])])]),
          ("score", Json.num 11)]) initState).1.test_results "B" "S" "T" = [4] ∧
    (append_table_data "B"
        (Json.obj [("tests", Json.obj [("S", Json.obj [("tests",
            Json.obj [("T", Json.obj [("total", Json.num 4)])])])]),
          ("score", Json.num 11)]) initState).1.totalTime "B" = [] ∧
    (append_table_data "B"
        (Json.obj [("tests", Json.obj [("S", Json.obj [("tests",
            Json.obj [("T", Json.obj [("total", Json.num 4)])])])]),
          ("score", Json.num 11)]) initState).1.score "B" = [] := by
  have h := claim_c9 "B"
    [("tests", Json.obj [("S", Json.obj [("tests",
        Json.obj [("T", Json.obj [("total", Json.num 3)])])])]),
     ("total", Json.num 9)] initState (Or.inr rfl)
  have h2 := claim_c9 "B"
    [("tests", Json.obj [("S", Json.obj [("tests",
        Json.obj [("T", Json.obj [("total", Json.num 4)])])])]),
     ("score", Json.num 11)] initState (Or.inl rfl)
  refine ⟨h.1, ?_, ?_, ?_, h2.1, ?_, ?_, ?_⟩
  · rw [h.2.1 "B" "S" "T"]
    simp [initState, leaf_totals, leaf_totals_scan, leaf_totals_dict,
      leaf_totals_children, leaf_here, numTotal, jsonLookup, truthy, toNum]
  · rw [h.2.2.1 (Json.num 9) (by rfl)]
    simp [listApp, initState]
  · rw [h.2.2.2.2]
    rfl
  · rw [h2.2.1 "B" "S" "T"]
    simp [initState, leaf_totals, leaf_totals_scan, leaf_totals_dict,
      leaf_totals_children, leaf_here, numTotal, jsonLookup, truthy, toNum]
  · rw [h2.2.2.2.1 (by rfl)]
    rfl
  · rw [h2.2.2.2.2]
    rfl

/-- C10: a numeric `total` at the root or at any node without an
established test name is never appended to any TimingSeries — prepending a
root-or-suite-level `total` field to a node walked without a test context
leaves the walk's result unchanged — and BenchmarkTotals receives exactly
the root-level `total` and `score` values. -/
theorem claim_c10 (bench : String) (q : ℚ) (fields : List (String × Json))
    (suite : Option String) (tr : TestResults) (st : AggState) (tv sv : Json) :
    (append_tests_recursively bench (.obj (("total", Json.num q) :: fields)) suite none tr
        = append_tests_recursively bench (.obj fields) suite none tr) ∧
    (jsonLookup fields "total" = some tv → jsonLookup fields "score" = some sv →
      (append_table_data bench (.obj fields) st).2 = false ∧
      (append_table_data bench (.obj fields) st).1.totalTime
          = listApp bench tv st.totalTime ∧
      (append_table_data bench (.obj fields) st).1.score
          = listApp bench sv st.score) := by
  constructor
  · funext b' s t
    rw [append_tests_recursively_spec, append_tests_recursively_spec]
    have hleaf : leaf_totals s t (.obj (("total", Json.num q) :: fields)) suite none
        = leaf_totals s t (.obj fields) suite none := by
      have h1 : leaf_here s t (("total", Json.num q) :: fields) suite none = [] := by
        simp [leaf_here, numTotal, jsonLookup, truthy, toNum]
      have h2 : leaf_here s t fields suite none = [] := by
        rcases hnt : numTotal fields with _ | q2 <;> simp [leaf_here, hnt, truthy]
      have h3 : leaf_totals_scan s t (("total", Json.num q) :: fields) suite
          = leaf_totals_scan s t fields suite := by
        simp [leaf_totals_scan]
      simp [leaf_totals, h1, h2, h3]
    rw [hleaf]
  · intro h1 h2
    exact atd_totals_ok bench fields st tv sv h1 h2

/-- C10 (witness): prepending `total: 5` to a payload walked at the root
(no test context) changes nothing, and the totals of a payload with root
`total: 7` and `score: 8` receive exactly those two values. -/
theorem claim_c10_witness :
    (append_tests_recursively "B"
        (Json.obj [("total", Json.num 5), ("total", Json.num 7), ("score", Json.num 8)])
        none none initState.test_results
      = append_tests_recursively "B"
        (Json.obj [("total", Json.num 7), ("score", Json.num 8)])
        none none initState.test_results) ∧
    (append_table_data "B"
        (Json.obj [("total", Json.num 7), ("score", Json.num 8)]) initState).2 = false ∧
    (append_table_data "B"
        (Json.obj [("total", Json.num 7), ("score", Json.num 8)])
        initState).1.totalTime "B" = [Json.num 7] ∧
    (append_table_data "B"
        (Json.obj [("total", Json.num 7), ("score", Json.num 8)])
        initState).1.score "B" = [Json.num 8] := by
  have h := claim_c10 "B" 5 [("total", Json.num 7), ("score", Json.num 8)]
    none initState.test_results initState (Json.num 7) (Json.num 8)
  obtain ⟨hok, ht, hs⟩ := h.2 (by rfl) (by rfl)
  refine ⟨h.1, hok, ?_, ?_⟩
  · rw [ht]
    simp [listApp, initState]
  · rw [hs]
    simp [listApp, initState]

/-! ## Helper evaluation lemmas for concrete comparison runs -/

lemma jmean_single (q : ℚ) : jmean [Json.num q] = .ok q := by
  simp [jmean, toNums, toNum, mean]

lemma jformat_single (sq : ℚ → ℚ) (tp : ℚ → ℕ → ℚ) (q : ℚ) :
    jformat sq tp [Json.num q] = .ok (fmt2 q) := by
  simp [jformat, toNums, toNum, format_mean_confidence_interval,
    confidence_interval_default, confidence_interval, mean]

lemma compare_row_single (sq : ℚ → ℚ) (tp : ℚ → ℕ → ℚ) (k : TKey)
    (qo qn : ℚ) (h : qn ≠ 0) :
    compare_row sq tp k [Json.num qo] [Json.num qn]
      = .ok ⟨k.1, k.2.1, k.2.2, fmt3 (qo / qn), fmt2 qo, fmt2 qn⟩ := by
  simp [compare_row, jmean_single, jformat_single, h]

lemma compare_row_single_zero (sq : ℚ → ℚ) (tp : ℚ → ℕ → ℚ) (k : TKey)
    (qo : ℚ) :
    compare_row sq tp k [Json.num qo] [Json.num 0] = .error () := by
  simp [compare_row, jmean_single]

lemma compare_row_old_missing (sq : ℚ → ℚ) (tp : ℚ → ℕ → ℚ) (k : TKey)
    (q : ℚ) :
    compare_row sq tp k [] [Json.num q]
      = .ok ⟨k.1, k.2.1, k.2.2, "", "—", fmt2 q⟩ := by
  simp [compare_row, jformat_single]

lemma compare_row_new_missing (sq : ℚ → ℚ) (tp : ℚ → ℕ → ℚ) (k : TKey)
    (q : ℚ) :
    compare_row sq tp k [Json.num q] []
      = .ok ⟨k.1, k.2.1, k.2.2, "", fmt2 q, "—"⟩ := by
  simp [compare_row, jformat_single]

/-- C7 (counterexample): with old series `[0.0]` and new series `[5.0]`
for the same key, `compareTests(A, B)` produces its row (speedup `0.000`),
but `compareTests(B, A)` divides by the zero mean and raises
`ZeroDivisionError` — it enumerates nothing, so the two directions do not
enumerate the same key set. -/
theorem claim_c7_counterexample :
    compare_tests (fun q => q) (fun _ _ => 0)
        [("B", [("S", [("T", Json.arr [Json.num 0])])])]
        [("B", [("S", [("T", Json.arr [Json.num 5])])])]
      = .ok [⟨"B", "S", "T", "0.000", "0.00", "5.00"⟩] ∧
    compare_tests (fun q => q) (fun _ _ => 0)
        [("B", [("S", [("T", Json.arr [Json.num 5])])])]
        [("B", [("S", [("T", Json.arr [Json.num 0])])])]
      = .error () := by
  have hxA : extract_tests [("B", [("S", [("T", Json.arr [Json.num 0])])])]
      = .ok [(("B", "S", "T"), [Json.num 0])] := rfl
  have hxB : extract_tests [("B", [("S", [("T", Json.arr [Json.num 5])])])]
      = .ok [(("B", "S", "T"), [Json.num 5])] := rfl
  have hsort : sortKeys ([("B", "S", "T")] ++ [("B", "S", "T")])
      = [(("B", "S", "T") : TKey)] := rfl
  have hd0 : dictGet [(("B", "S", "T"), [Json.num 0])] ("B", "S", "T")
      = [Json.num 0] := rfl
  have hd5 : dictGet [(("B", "S", "T"), [Json.num 5])] ("B", "S", "T")
      = [Json.num 5] := rfl
  have hf0 : fmt3 ((0 : ℚ) / 5) = "0.000" := by
    norm_num [fmt3, fmtFixed, roundHalfEven, ratFloor, padZeros]
    decide
  have hc0 : fmt2 (0 : ℚ) = "0.00" := by
    norm_num [fmt2, fmtFixed, roundHalfEven, ratFloor, padZeros]
    decide
  have hc5 : fmt2 (5 : ℚ) = "5.00" := by
    norm_num [fmt2, fmtFixed, roundHalfEven, ratFloor, padZeros]
    decide
  constructor
  · simp only [compare_tests, hxA, hxB, List.map_cons, List.map_nil, hsort,
      rowsFor, hd0, hd5,
      compare_row_single (fun q => q) (fun _ _ => 0) ("B", "S", "T") 0 5
        (by norm_num)]
    rw [hf0, hc0, hc5]
  · simp only [compare_tests, hxA, hxB, List.map_cons, List.map_nil, hsort,
      rowsFor, hd0, hd5,
      compare_row_single_zero (fun q => q) (fun _ _ => 0) ("B", "S", "T") 5]

/-- C7 (amended): whenever both `compareTests(A, B)` and
`compareTests(B, A)` complete without raising (in particular no compared
pair has a zero mean), the two runs enumerate the same key list — the
union of both sides' extracted keys, sorted lexicographically and without
duplicates — with old/new columns swapped row by row, and for every key
where both speedups are numeric the two speedups are built from the same
pair of nonzero means as reciprocal ratios (`(m1/m2) * (m2/m1) = 1`
exactly, the rational idealisation of "inverse up to floating
tolerance"). -/
theorem claim_c7_amended (sq : ℚ → ℚ) (tp : ℚ → ℕ → ℚ) (A B : ResultData)
    (r1 r2 : List Row) (rA rB : List (TKey × List Json))
    (hA : extract_tests A = .ok rA) (hB : extract_tests B = .ok rB)
    (h1 : compare_tests sq tp A B = .ok r1)
    (h2 : compare_tests sq tp B A = .ok r2) :
    r1.map rowKey = r2.map rowKey ∧
    List.Sorted keyLe (r1.map rowKey) ∧
    (r1.map rowKey).Nodup ∧
    (∀ k : TKey, k ∈ r1.map rowKey ↔ (k ∈ rA.map (·.1) ∨ k ∈ rB.map (·.1))) ∧
    List.Forall₂ RowRel r1 r2 := by
  simp only [compare_tests, hA, hB] at h1 h2
  have hkeys : sortKeys (rB.map (·.1) ++ rA.map (·.1))
      = sortKeys (rA.map (·.1) ++ rB.map (·.1)) :=
    sortKeys_eq_of_perm List.perm_append_comm
  rw [hkeys] at h2
  have hk1 := rowsFor_keys h1
  have hk2 := rowsFor_keys h2
  refine ⟨by rw [hk1, hk2], ?_, ?_, ?_, rowsFor_swap h1 h2⟩
  · rw [hk1]
    exact sorted_sortKeys _
  · rw [hk1]
    exact nodup_sortKeys _
  · intro k
    rw [hk1, mem_sortKeys, List.mem_append]

/-- C7 (witness): the amended claim on two concrete result sets sharing
the key `(B1, S, T)`, with `(B1, S, T2)` present only in the second: both
directions succeed, enumerate the two keys in sorted order, swap the
columns and carry reciprocal speedups (`0.500` / `2.000`). -/
theorem claim_c7_witness :
    ([⟨"B1", "S", "T", "0.500", "1.00", "2.00"⟩,
      ⟨"B1", "S", "T2", "", "—", "3.00"⟩] : List Row).map rowKey
      = ([⟨"B1", "S", "T", "2.000", "2.00", "1.00"⟩,
          ⟨"B1", "S", "T2", "", "3.00", "—"⟩] : List Row).map rowKey ∧
    List.Sorted keyLe
      (([⟨"B1", "S", "T", "0.500", "1.00", "2.00"⟩,
         ⟨"B1", "S", "T2", "", "—", "3.00"⟩] : List Row).map rowKey) ∧
    (([⟨"B1", "S", "T", "0.500", "1.00", "2.00"⟩,
       ⟨"B1", "S", "T2", "", "—", "3.00"⟩] : List Row).map rowKey).Nodup ∧
    (∀ k : TKey,
      k ∈ ([⟨"B1", "S", "T", "0.500", "1.00", "2.00"⟩,
            ⟨"B1", "S", "T2", "", "—", "3.00"⟩] : List Row).map rowKey ↔
        (k ∈ [(("B1", "S", "T"), [Json.num 1])].map (·.1) ∨
         k ∈ [(("B1", "S", "T"), [Json.num 2]),
              (("B1", "S", "T2"), [Json.num 3])].map (·.1))) ∧
    List.Forall₂ RowRel
      [⟨"B1", "S", "T", "0.500", "1.00", "2.00"⟩,
       ⟨"B1", "S", "T2", "", "—", "3.00"⟩]
      [⟨"B1", "S", "T", "2.000", "2.00", "1.00"⟩,
       ⟨"B1", "S", "T2", "", "3.00", "—"⟩] := by
  have hf12 : fmt3 ((1 : ℚ) / 2) = "0.500" := by
    norm_num [fmt3, fmtFixed, roundHalfEven, ratFloor, padZeros]
    decide
  have hf21 : fmt3 ((2 : ℚ) / 1) = "2.000" := by
    norm_num [fmt3, fmtFixed, roundHalfEven, ratFloor, padZeros]
    decide
  have hc1 : fmt2 (1 : ℚ) = "1.00" := by
    norm_num [fmt2, fmtFixed, roundHalfEven, ratFloor, padZeros]
    decide
  have hc2 : fmt2 (2 : ℚ) = "2.00" := by
    norm_num [fmt2, fmtFixed, roundHalfEven, ratFloor, padZeros]
    decide
  have hc3 : fmt2 (3 : ℚ) = "3.00" := by
    norm_num [fmt2, fmtFixed, roundHalfEven, ratFloor, padZeros]
    decide
  have hxA : extract_tests [("B1", [("S", [("T", Json.arr [Json.num 1])])])]
      = .ok [(("B1", "S", "T"), [Json.num 1])] := rfl
  have hxB : extract_tests
      [("B1", [("S", [("T", Json.arr [Json.num 2]), ("T2", Json.arr [Json.num 3])])])]
      = .ok [(("B1", "S", "T"), [Json.num 2]), (("B1", "S", "T2"), [Json.num 3])] := rfl
  have hsort1 : sortKeys
      ([("B1", "S", "T")] ++ [("B1", "S", "T"), ("B1", "S", "T2")])
      = [(("B1", "S", "T") : TKey), ("B1", "S", "T2")] := rfl
  have hsort2 : sortKeys
      ([("B1", "S", "T"), ("B1", "S", "T2")] ++ [("B1", "S", "T")])
      = [(("B1", "S", "T") : TKey), ("B1", "S", "T2")] := rfl
  have hdA1 : dictGet [(("B1", "S", "T"), [Json.num 1])] ("B1", "S", "T")
      = [Json.num 1] := rfl
  have hdA2 : dictGet [(("B1", "S", "T"), [Json.num 1])] ("B1", "S", "T2")
      = [] := rfl
  have hdB1 : dictGet [(("B1", "S", "T"), [Json.num 2]), (("B1", "S", "T2"), [Json.num 3])]
      ("B1", "S", "T") = [Json.num 2] := rfl
  have hdB2 : dictGet [(("B1", "S", "T"), [Json.num 2]), (("B1", "S", "T2"), [Json.num 3])]
      ("B1", "S", "T2") = [Json.num 3] := rfl
  have e1 : compare_tests (fun q => q) (fun _ _ => 0)
      [("B1", [("S", [("T", Json.arr [Json.num 1])])])]
      [("B1", [("S", [("T", Json.arr [Json.num 2]), ("T2", Json.arr [Json.num 3])])])]
      = .ok [⟨"B1", "S", "T", "0.500", "1.00", "2.00"⟩,
             ⟨"B1", "S", "T2", "", "—", "3.00"⟩] := by
    simp only [compare_tests, hxA, hxB, List.map_cons, List.map_nil, hsort1,
      rowsFor, hdA1, hdA2, hdB1, hdB2,
      compare_row_single (fun q => q) (fun _ _ => 0) ("B1", "S", "T") 1 2
        (by norm_num),
      compare_row_old_missing (fun q => q) (fun _ _ => 0) ("B1", "S", "T2") 3]
    rw [hf12, hc1, hc2, hc3]
  have e2 : compare_tests (fun q => q) (fun _ _ => 0)
      [("B1", [("S", [("T", Json.arr [Json.num 2]), ("T2", Json.arr [Json.num 3])])])]
      [("B1", [("S", [("T", Json.arr [Json.num 1])])])]
      = .ok [⟨"B1", "S", "T", "2.000", "2.00", "1.00"⟩,
             ⟨"B1", "S", "T2", "", "3.00", "—"⟩] := by
    simp only [compare_tests, hxA, hxB, List.map_cons, List.map_nil, hsort2,
      rowsFor, hdA1, hdA2, hdB1, hdB2,
      compare_row_single (fun q => q) (fun _ _ => 0) ("B1", "S", "T") 2 1
        (by norm_num),
      compare_row_new_missing (fun q => q) (fun _ _ => 0) ("B1", "S", "T2") 3]
    rw [hf21, hc1, hc2, hc3]
  exact claim_c7_amended (fun q => q) (fun _ _ => 0)
    [("B1", [("S", [("T", Json.arr [Json.num 1])])])]
    [("B1", [("S", [("T", Json.arr [Json.num 2]), ("T2", Json.arr [Json.num 3])])])]
    _ _ _ _ hxA hxB e1 e2

end WB
